import Mathlib

/-!
Verification development for a command-line contact book (`main.py`).
The Python source is shallowly embedded: each class/method below mirrors one
definition of the source.  Python exceptions become `Except String`;
`datetime.date` becomes the `Date` structure with proleptic-Gregorian
arithmetic (ordinals as in `datetime.date.toordinal`, `weekday` with
Monday = 0); strings are handled through their character lists so that all
definitions reduce in the kernel.
-/

/-- Calendar date, mirroring `datetime.date` (year, month, day). -/
structure Date where
  year : Nat
  month : Nat
  day : Nat
deriving DecidableEq, Repr

/-- Gregorian leap-year rule used by `datetime`/`calendar.isleap`. -/
def isLeap (y : Nat) : Bool :=
  y % 4 == 0 && (y % 100 != 0 || y % 400 == 0)

/-- Length of a month, as `datetime` uses to validate `date(year, month, day)`. -/
def daysInMonth (y m : Nat) : Nat :=
  if m = 2 then (if isLeap y then 29 else 28)
  else if m = 4 ∨ m = 6 ∨ m = 9 ∨ m = 11 then 30
  else 31

/-- Validity of a `(year, month, day)` triple: exactly the triples accepted by
`datetime.date(year, month, day)` (`MINYEAR = 1`, `MAXYEAR = 9999`). -/
def validYMD (y m d : Nat) : Bool :=
  decide (1 ≤ y ∧ y ≤ 9999 ∧ 1 ≤ m ∧ m ≤ 12 ∧ 1 ≤ d ∧ d ≤ daysInMonth y m)

/-- Validity of a `Date` value. -/
def Date.valid (dt : Date) : Bool :=
  validYMD dt.year dt.month dt.day

/-- Days in the months strictly before month `m` of year `y`. -/
def daysBeforeMonth (y m : Nat) : Nat :=
  (List.range (m - 1)).foldl (fun acc i => acc + daysInMonth y (i + 1)) 0

/-- Proleptic-Gregorian ordinal of a date, as `datetime.date.toordinal`
(0001-01-01 has ordinal 1). -/
def toOrdinal (dt : Date) : Nat :=
  let y := dt.year - 1
  365 * y + y / 4 - y / 100 + y / 400 + daysBeforeMonth dt.year dt.month + dt.day

/-- Weekday as `datetime.date.weekday`: Monday = 0 … Sunday = 6
(0001-01-01 was a Monday). -/
def weekday (dt : Date) : Nat :=
  (toOrdinal dt + 6) % 7

/-- Python `date` comparison: lexicographic on (year, month, day). -/
def dateLt (a b : Date) : Bool :=
  decide (a.year < b.year ∨ (a.year = b.year ∧
    (a.month < b.month ∨ (a.month = b.month ∧ a.day < b.day))))

/-- The calendar day after `dt` (used to model `+ timedelta(days=1)`). -/
def nextDay (dt : Date) : Date :=
  if dt.day < daysInMonth dt.year dt.month then ⟨dt.year, dt.month, dt.day + 1⟩
  else if dt.month < 12 then ⟨dt.year, dt.month + 1, 1⟩
  else ⟨dt.year + 1, 1, 1⟩

/-- `dt + timedelta(days=n)` for a valid date `dt`. -/
def addDays (dt : Date) : Nat → Date
  | 0 => dt
  | n + 1 => nextDay (addDays dt n)

/-- Digit string to number, e.g. `['2','0','2','4']` to `2024`. -/
def digitsToNat (l : List Char) : Nat :=
  l.foldl (fun acc c => 10 * acc + (c.toNat - 48)) 0

/-- All characters are ASCII decimal digits. -/
def allDigits (l : List Char) : Bool :=
  l.all Char.isDigit

/-- Split a character list at every dot, like `str.split` on a single-character
separator: `"a.b"` gives `["a", "b"]`, `""` gives `[""]`. -/
def splitDots : List Char → List (List Char)
  | [] => [[]]
  | '.' :: rest => [] :: splitDots rest
  | c :: rest =>
    match splitDots rest with
    | [] => [[c]]
    | g :: gs => (c :: g) :: gs

/-- Semantics of `datetime.strptime(s, "%d.%m.%Y").date()`: the string must be
day `.` month `.` year where the day is 1 or 2 digits with value 1–31
(CPython pattern `3[01]|[12]\d|0[1-9]|[1-9]`), the month is 1 or 2 digits with
value 1–12 (`1[0-2]|0[1-9]|[1-9]`), the year is exactly 4 digits, no input may
remain, and the resulting triple must be a constructible `datetime.date`. -/
def parseDDMMYYYY (s : String) : Option Date :=
  match splitDots s.data with
  | [d, m, y] =>
    if allDigits d && allDigits m && allDigits y
        && (d.length == 1 || d.length == 2)
        && decide (1 ≤ digitsToNat d) && decide (digitsToNat d ≤ 31)
        && (m.length == 1 || m.length == 2)
        && decide (1 ≤ digitsToNat m) && decide (digitsToNat m ≤ 12)
        && (y.length == 4)
        && validYMD (digitsToNat y) (digitsToNat m) (digitsToNat d)
    then some ⟨digitsToNat y, digitsToNat m, digitsToNat d⟩
    else none
  | _ => none

/-- `class Phone(Field)`: holds the validated 10-digit string. -/
structure Phone where
  value : String
deriving DecidableEq, Repr

namespace Phone

/-- `Phone.validate_number`: length check, then digit check (`str.isdigit`,
restricted to ASCII digits), returning the original string on success. -/
def validate_number (number : String) : Except String String :=
  if number.length ≠ 10 then .error "Phone number must contain 10 digits"
  else if ¬ (number.data.all Char.isDigit) then
    .error "Phone number must contain only numbers"
  else .ok number

/-- `Phone.__init__`: `self.value = self.validate_number(number)`. -/
def make (number : String) : Except String Phone :=
  (validate_number number).map Phone.mk

end Phone

/-- `class Birthday(Field)`: the constructor checks that the string parses with
`strptime(value, "%d.%m.%Y")` and then stores the raw string
(`self.value = value`).  The proof field records the class invariant that every
constructed `Birthday` holds a parseable string. -/
structure Birthday where
  value : String
  hvalid : (parseDDMMYYYY value).isSome = true

namespace Birthday

/-- `Birthday.__init__`: try `strptime`; on failure raise
`ValueError("Invalid date format. Use DD.MM.YYYY")`; on success store the raw
input string. -/
def make (value : String) : Except String Birthday :=
  if h : (parseDDMMYYYY value).isSome = true then .ok ⟨value, h⟩
  else .error "Invalid date format. Use DD.MM.YYYY"

/-- The calendar date re-parsed from the stored string, as line 86 of the
source does with `datetime.strptime(record.birthday.value, "%d.%m.%Y").date()`. -/
def bdate (b : Birthday) : Date :=
  (parseDDMMYYYY b.value).get b.hvalid

end Birthday

/-- `class Name(Field)`. -/
structure Name where
  value : String
deriving DecidableEq, Repr

/-- `class Record`: name, list of phones, optional birthday. -/
structure Record where
  name : Name
  phones : List Phone
  birthday : Option Birthday

/-- The phone values of a record, in order. -/
def Record.phoneValues (r : Record) : List String :=
  r.phones.map Phone.value

namespace Record

/-- `Record.add_phone`: duplicate check against existing values, then
validated construction and append. -/
def add_phone (r : Record) (number : String) : Except String Record :=
  if r.phones.any (fun p => p.value == number) then .error "Phone already exists."
  else (Phone.make number).map (fun p => { r with phones := r.phones ++ [p] })

/-- `Record.remove_phone`: keep exactly the phones whose value differs. -/
def remove_phone (r : Record) (number : String) : Record :=
  { r with phones := r.phones.filter (fun p => p.value ≠ number) }

/-- The loop of `Record.edit_phone`: replace the first phone equal to
`old` by a freshly validated phone built from `new`; raise the not-found
error after the loop. -/
def editLoop (contact old new : String) : List Phone → Except String (List Phone)
  | [] => .error ("Phone '" ++ old ++ "' not found for contact '" ++ contact ++ "'.")
  | p :: rest =>
    if p.value == old then (Phone.make new).map (fun q => q :: rest)
    else (editLoop contact old new rest).map (fun l => p :: l)

/-- `Record.edit_phone`. -/
def edit_phone (r : Record) (old new : String) : Except String Record :=
  (editLoop r.name.value old new r.phones).map (fun l => { r with phones := l })

/-- `Record.add_birthday`: validated construction, unconditional overwrite. -/
def add_birthday (r : Record) (date_str : String) : Except String Record :=
  (Birthday.make date_str).map (fun b => { r with birthday := some b })

end Record

/-- A single entry of the list returned by `get_upcoming_birthdays`:
`{"name": ..., "birthday": greet_date.strftime("%d.%m.%Y")}`. -/
structure UBResult where
  name : String
  birthday : String
deriving DecidableEq, Repr

/-- ASCII digit character for `n < 10`. -/
def digitChar (n : Nat) : Char :=
  Char.ofNat (48 + n)

/-- Two-digit zero-padded rendering, as `strftime` does for `%d` and `%m`. -/
def fmt2 (n : Nat) : String :=
  ⟨[digitChar (n / 10 % 10), digitChar (n % 10)]⟩

/-- Four-digit zero-padded rendering, as `strftime` does for `%Y`. -/
def fmt4 (n : Nat) : String :=
  ⟨[digitChar (n / 1000 % 10), digitChar (n / 100 % 10),
    digitChar (n / 10 % 10), digitChar (n % 10)]⟩

/-- `greet_date.strftime("%d.%m.%Y")`. -/
def strftimeDMY (dt : Date) : String :=
  fmt2 dt.day ++ "." ++ fmt2 dt.month ++ "." ++ fmt4 dt.year

/-- Lines 88–91 / 94–97 of the source: `original_bday.replace(year=y)`, and on
`ValueError` (a Feb 29 birthday in a non-leap year) the fallback
`original_bday.replace(year=y, day=28)`. -/
def bdayInYear (orig : Date) (y : Nat) : Date :=
  if validYMD y orig.month orig.day then ⟨y, orig.month, orig.day⟩
  else ⟨y, orig.month, 28⟩

/-- Lines 88–97: this year's occurrence, rolled over to next year when it has
already passed (`bday_this_year < today`). -/
def resolveOccurrence (today orig : Date) : Date :=
  let b := bdayInYear orig today.year
  if dateLt b today then bdayInYear orig (today.year + 1) else b

/-- Line 99: `delta = (bday_this_year - today).days`. -/
def delta (today orig : Date) : Int :=
  (toOrdinal (resolveOccurrence today orig) : Int) - (toOrdinal today : Int)

/-- Lines 102–104: start from the resolved occurrence; a Saturday (weekday 5)
or Sunday (weekday 6) is shifted by `7 - weekday` days to the next Monday. -/
def weekendShift (g : Date) : Date :=
  if weekday g = 5 ∨ weekday g = 6 then addDays g (7 - weekday g) else g

/-- The body of the loop of `get_upcoming_birthdays` for one record: `none`
when the record has no birthday or the delta is outside `[0, 7]`, otherwise
the appended `{name, birthday}` entry. -/
def processRecord (today : Date) (r : Record) : Option UBResult :=
  match r.birthday with
  | none => none
  | some b =>
    if 0 ≤ delta today b.bdate ∧ delta today b.bdate ≤ 7 then
      some ⟨r.name.value, strftimeDMY (weekendShift (resolveOccurrence today b.bdate))⟩
    else none

/-- `class AddressBook(UserDict)`: insertion-ordered mapping from name to
record (Python dicts preserve insertion order). -/
structure AddressBook where
  data : List (String × Record)

/-- `self.data.values()`, in iteration order. -/
def AddressBook.records (book : AddressBook) : List Record :=
  book.data.map Prod.snd

/-- The accumulator loop of `get_upcoming_birthdays`:
`upcoming = []` followed by `upcoming.append(...)` for each match. -/
def upcomingLoop (today : Date) : List Record → List UBResult → List UBResult
  | [], acc => acc
  | r :: rest, acc =>
    match processRecord today r with
    | some res => upcomingLoop today rest (acc ++ [res])
    | none => upcomingLoop today rest acc

/-- `AddressBook.get_upcoming_birthdays`.  In the source the method takes no
parameter and sets `today = datetime.today().date()` (line 81); the ambient
wall-clock date read there is the explicit `today` argument of this embedding. -/
def AddressBook.get_upcoming_birthdays (book : AddressBook) (today : Date) : List UBResult :=
  upcomingLoop today book.records []

/-- One mutating record operation, as dispatched by the command handlers. -/
inductive RecOp where
  | addPhone (number : String)
  | removePhone (number : String)
  | editPhone (old new : String)
  | addBirthday (date_str : String)

/-- Apply one operation to a record; a raised exception leaves the record
unchanged (the source methods raise before mutating). -/
def Record.applyOp (r : Record) : RecOp → Record
  | .addPhone n =>
    match r.add_phone n with
    | .ok r2 => r2
    | .error _ => r
  | .removePhone n => r.remove_phone n
  | .editPhone o n =>
    match r.edit_phone o n with
    | .ok r2 => r2
    | .error _ => r
  | .addBirthday s =>
    match r.add_birthday s with
    | .ok r2 => r2
    | .error _ => r

/-- Apply a sequence of operations left to right. -/
def Record.applyOps (r : Record) (ops : List RecOp) : Record :=
  ops.foldl Record.applyOp r

/-- Safety side condition for one operation: `edit_phone` must not introduce a
value already present on another phone; the other operations need none. -/
def RecOp.safeFor (op : RecOp) (r : Record) : Bool :=
  match op with
  | .editPhone o n => decide (n = o ∨ n ∉ r.phoneValues)
  | _ => true

/-- Safety of a whole sequence, each step judged on the state it acts on. -/
def Record.opsSafe (r : Record) : List RecOp → Bool
  | [] => true
  | op :: rest => op.safeFor r && (r.applyOp op).opsSafe rest

theorem mem_phoneValues_iff (r : Record) (n : String) :
    n ∈ r.phoneValues ↔ r.phones.any (fun p => p.value == n) = true := by
  simp only [Record.phoneValues, List.any_eq_true, List.mem_map, beq_iff_eq]

theorem validate_number_ok (n v : String) (h : Phone.validate_number n = .ok v) :
    v = n := by
  unfold Phone.validate_number at h
  split at h
  · simp at h
  · split at h
    · simp at h
    · simp at h
      exact h.symm

theorem phone_make_ok (n : String) (p : Phone) (h : Phone.make n = .ok p) :
    p.value = n ∧ Phone.validate_number n = .ok n := by
  unfold Phone.make at h
  cases hv : Phone.validate_number n with
  | error e => rw [hv] at h; simp [Except.map] at h
  | ok v =>
    have hvn := validate_number_ok n v hv
    subst hvn
    rw [hv] at h
    simp only [Except.map] at h
    injection h with h2
    subst h2
    exact ⟨rfl, rfl⟩

theorem daysInMonth_ge_28 (y m : Nat) : 28 ≤ daysInMonth y m := by
  unfold daysInMonth
  split
  · split <;> omega
  · split <;> omega

theorem daysInMonth_le_31 (y m : Nat) : daysInMonth y m ≤ 31 := by
  unfold daysInMonth
  split
  · split <;> omega
  · split <;> omega

theorem upcomingLoop_eq (today : Date) (l : List Record) (acc : List UBResult) :
    upcomingLoop today l acc = acc ++ l.filterMap (processRecord today) := by
  induction l generalizing acc with
  | nil => simp [upcomingLoop]
  | cons r rest ih =>
    unfold upcomingLoop
    cases h : processRecord today r with
    | none => simp [h, ih]
    | some res => simp [h, ih]

theorem get_upcoming_eq_filterMap (book : AddressBook) (today : Date) :
    book.get_upcoming_birthdays today = book.records.filterMap (processRecord today) := by
  simp [AddressBook.get_upcoming_birthdays, upcomingLoop_eq]

/-- C1: the claim says `get_upcoming_birthdays` takes `today` as an explicit
parameter and does not bind to the wall clock; the source method takes no
parameter and reads `datetime.today().date()` internally (line 81).  In the
embedding the ambient clock date is the `today` argument, and this theorem
evaluates the scan on one fixed address book at two ambient clock dates,
obtaining different results: the output is a function of the wall-clock date
read inside the method, which the caller of the source cannot supply. -/
theorem c1_scan_depends_on_ambient_clock :
    (AddressBook.get_upcoming_birthdays
        ⟨[("Vitalii", ⟨⟨"Vitalii"⟩, [], some ⟨"10.06.1990", by decide⟩⟩)]⟩ ⟨2024, 6, 10⟩
      = [⟨"Vitalii", "10.06.2024"⟩])
  ∧ (AddressBook.get_upcoming_birthdays
        ⟨[("Vitalii", ⟨⟨"Vitalii"⟩, [], some ⟨"10.06.1990", by decide⟩⟩)]⟩ ⟨2024, 7, 10⟩
      = []) := by
  exact ⟨by decide, by decide⟩

/-- C10: `Phone` construction fails with the length message when the length is
not 10, fails with the digit message when the length is 10 but some character
is not a decimal digit, and for a string of exactly 10 decimal digits succeeds
holding the original string unchanged. -/
theorem c10_phone_validation (s : String) :
    (s.length ≠ 10 → Phone.make s = .error "Phone number must contain 10 digits")
  ∧ (s.length = 10 → (s.data.all Char.isDigit) = false →
      Phone.make s = .error "Phone number must contain only numbers")
  ∧ (s.length = 10 → (s.data.all Char.isDigit) = true →
      Phone.make s = .ok ⟨s⟩) := by
  unfold Phone.make Phone.validate_number
  refine ⟨fun h1 => ?_, fun h1 h2 => ?_, fun h1 h2 => ?_⟩
  · rw [if_pos h1]
    rfl
  · rw [if_neg (by simp [h1]), if_pos (by simp [h2])]
    rfl
  · rw [if_neg (by simp [h1]), if_neg (by simp [h2])]
    rfl

/-- Witness for C10 at concrete inputs: a 9-character string, a 10-character
string with letters, and a 10-digit string with a leading zero. -/
theorem c10_phone_validation_witness :
    Phone.make "123456789" = .error "Phone number must contain 10 digits"
  ∧ Phone.make "12345abcde" = .error "Phone number must contain only numbers"
  ∧ Phone.make "0123456789" = .ok ⟨"0123456789"⟩ :=
  ⟨(c10_phone_validation "123456789").1 (by decide),
   (c10_phone_validation "12345abcde").2.1 (by decide) (by decide),
   (c10_phone_validation "0123456789").2.2 (by decide) (by decide)⟩

/-- C8: `add_phone` on a value already present fails with
"Phone already exists." and leaves the record unchanged; on a fresh, valid
value it appends the new phone at the end, keeping the existing order. -/
theorem c8_add_phone_spec (r : Record) (number : String) :
    (number ∈ r.phoneValues →
        r.add_phone number = .error "Phone already exists."
      ∧ r.applyOp (.addPhone number) = r)
  ∧ (number ∉ r.phoneValues → Phone.validate_number number = .ok number →
        r.add_phone number = .ok { r with phones := r.phones ++ [⟨number⟩] }) := by
  constructor
  · intro hmem
    have hco : r.add_phone number = .error "Phone already exists." := by
      unfold Record.add_phone
      rw [if_pos ((mem_phoneValues_iff r number).mp hmem)]
    refine ⟨hco, ?_⟩
    simp only [Record.applyOp, hco]
  · intro hmem hv
    unfold Record.add_phone
    rw [if_neg (by rw [← mem_phoneValues_iff]; exact hmem)]
    unfold Phone.make
    rw [hv]
    rfl

/-- Witness for C8: adding a present number fails leaving the record as it
was; adding a fresh number appends it after the existing one. -/
theorem c8_add_phone_spec_witness :
    (Record.add_phone ⟨⟨"Ann"⟩, [⟨"1234567890"⟩], none⟩ "1234567890"
        = .error "Phone already exists."
      ∧ Record.applyOp ⟨⟨"Ann"⟩, [⟨"1234567890"⟩], none⟩ (.addPhone "1234567890")
        = ⟨⟨"Ann"⟩, [⟨"1234567890"⟩], none⟩)
  ∧ Record.add_phone ⟨⟨"Ann"⟩, [⟨"1234567890"⟩], none⟩ "0987654321"
      = .ok ⟨⟨"Ann"⟩, [⟨"1234567890"⟩, ⟨"0987654321"⟩], none⟩ :=
  ⟨(c8_add_phone_spec ⟨⟨"Ann"⟩, [⟨"1234567890"⟩], none⟩ "1234567890").1 (by decide),
   (c8_add_phone_spec ⟨⟨"Ann"⟩, [⟨"1234567890"⟩], none⟩ "0987654321").2
     (by decide) (by rfl)⟩

/-- C2: a record with a set birthday contributes an entry to
`get_upcoming_birthdays` exactly when the whole-day delta between `today` and
the resolved occurrence (this year, or next year after rollover) lies in the
inclusive range `[0, 7]`. -/
theorem c2_window_membership_iff (today : Date) (book : AddressBook) (r : Record)
    (b : Birthday) (hr : r ∈ book.records) (hb : r.birthday = some b) :
    (∃ res, processRecord today r = some res
        ∧ res ∈ book.get_upcoming_birthdays today)
      ↔ (0 ≤ delta today b.bdate ∧ delta today b.bdate ≤ 7) := by
  rw [get_upcoming_eq_filterMap]
  constructor
  · rintro ⟨res, h1, -⟩
    by_cases hc : 0 ≤ delta today b.bdate ∧ delta today b.bdate ≤ 7
    · exact hc
    · simp [processRecord, hb, hc] at h1
  · intro hc
    have hp : processRecord today r
        = some ⟨r.name.value, strftimeDMY (weekendShift (resolveOccurrence today b.bdate))⟩ := by
      simp [processRecord, hb, hc]
    exact ⟨_, hp, List.mem_filterMap.mpr ⟨r, hr, hp⟩⟩

/-- Witness for C2: with `today = 2024-06-10`, a birthday on 17.06 (delta
exactly 7, the inclusive boundary) produces an entry, and a birthday on 18.06
(delta 8) does not. -/
theorem c2_window_membership_iff_witness :
    (∃ res, processRecord ⟨2024, 6, 10⟩ ⟨⟨"V"⟩, [], some ⟨"17.06.1990", by decide⟩⟩ = some res
        ∧ res ∈ AddressBook.get_upcoming_birthdays
            ⟨[("V", ⟨⟨"V"⟩, [], some ⟨"17.06.1990", by decide⟩⟩)]⟩ ⟨2024, 6, 10⟩)
  ∧ ¬ (∃ res, processRecord ⟨2024, 6, 10⟩ ⟨⟨"W"⟩, [], some ⟨"18.06.1990", by decide⟩⟩ = some res
        ∧ res ∈ AddressBook.get_upcoming_birthdays
            ⟨[("W", ⟨⟨"W"⟩, [], some ⟨"18.06.1990", by decide⟩⟩)]⟩ ⟨2024, 6, 10⟩) :=
  ⟨(c2_window_membership_iff ⟨2024, 6, 10⟩
      ⟨[("V", ⟨⟨"V"⟩, [], some ⟨"17.06.1990", by decide⟩⟩)]⟩
      ⟨⟨"V"⟩, [], some ⟨"17.06.1990", by decide⟩⟩
      ⟨"17.06.1990", by decide⟩ (List.Mem.head _) rfl).mpr (by decide),
   fun hex =>
    absurd ((c2_window_membership_iff ⟨2024, 6, 10⟩
      ⟨[("W", ⟨⟨"W"⟩, [], some ⟨"18.06.1990", by decide⟩⟩)]⟩
      ⟨⟨"W"⟩, [], some ⟨"18.06.1990", by decide⟩⟩
      ⟨"18.06.1990", by decide⟩ (List.Mem.head _) rfl).mp hex) (by decide)⟩

/-- C3: inside the 0–7 day window, a resolved occurrence falling on Saturday
(weekday 5) is reported shifted by 2 days and one falling on Sunday
(weekday 6) shifted by 1 day (the following Monday); a weekday occurrence is
reported unshifted.  The shift is applied after the window test, so the
reported date may lie beyond the 7-day window. -/
theorem c3_weekend_shift (today : Date) (r : Record) (b : Birthday)
    (hb : r.birthday = some b)
    (h0 : 0 ≤ delta today b.bdate) (h7 : delta today b.bdate ≤ 7) :
    (weekday (resolveOccurrence today b.bdate) = 5 →
      processRecord today r
        = some ⟨r.name.value, strftimeDMY (addDays (resolveOccurrence today b.bdate) 2)⟩)
  ∧ (weekday (resolveOccurrence today b.bdate) = 6 →
      processRecord today r
        = some ⟨r.name.value, strftimeDMY (addDays (resolveOccurrence today b.bdate) 1)⟩)
  ∧ (weekday (resolveOccurrence today b.bdate) ≠ 5 →
     weekday (resolveOccurrence today b.bdate) ≠ 6 →
      processRecord today r
        = some ⟨r.name.value, strftimeDMY (resolveOccurrence today b.bdate)⟩) := by
  have hp : processRecord today r
      = some ⟨r.name.value, strftimeDMY (weekendShift (resolveOccurrence today b.bdate))⟩ := by
    simp [processRecord, hb, h0, h7]
  refine ⟨fun h5 => ?_, fun h6 => ?_, fun h5 h6 => ?_⟩
  · rw [hp]
    unfold weekendShift
    rw [if_pos (Or.inl h5), h5]
  · rw [hp]
    unfold weekendShift
    rw [if_pos (Or.inr h6), h6]
  · rw [hp]
    unfold weekendShift
    rw [if_neg (by simp [h5, h6])]

/-- Witness for C3 with `today = 2024-06-08`: birthday 15.06 resolves to
Saturday 15.06.2024 at delta 7 (inside the window) and is reported as Monday
17.06.2024, which lies 9 days after `today`, beyond the 7-day window. -/
theorem c3_weekend_shift_witness :
    processRecord ⟨2024, 6, 8⟩ ⟨⟨"V"⟩, [], some ⟨"15.06.1990", by decide⟩⟩
      = some ⟨"V", "17.06.2024"⟩
  ∧ (toOrdinal (addDays (resolveOccurrence ⟨2024, 6, 8⟩
        (Birthday.bdate ⟨"15.06.1990", by decide⟩)) 2) : Int)
      - (toOrdinal ⟨2024, 6, 8⟩ : Int) = 9 :=
  ⟨by
    have h := ((c3_weekend_shift ⟨2024, 6, 8⟩ ⟨⟨"V"⟩, [], some ⟨"15.06.1990", by decide⟩⟩
      ⟨"15.06.1990", by decide⟩ rfl (by decide) (by decide)).1 (by decide))
    rw [h]
    decide,
   by decide⟩

theorem bdayInYear_valid (orig : Date) (y : Nat) (h : orig.valid = true)
    (hy1 : 1 ≤ y) (hy2 : y ≤ 9999) : (bdayInYear orig y).valid = true := by
  unfold bdayInYear
  split
  · next hv => exact hv
  · next hv =>
    simp only [Date.valid, validYMD, decide_eq_true_eq] at h ⊢
    have h28 := daysInMonth_ge_28 y orig.month
    omega

/-- C7: a February 29 birthday never makes the scan fail on a non-leap target
year: the `replace` fallback used by the source yields February 28 of the
target year, a constructible date, both for this year's attempt and for the
rolled-over occurrence. -/
theorem c7_feb29_fallback (orig today : Date) (h : orig.valid = true)
    (hm : orig.month = 2) (hd : orig.day = 29)
    (hy1 : 1 ≤ today.year) (hy2 : today.year + 1 ≤ 9999) :
    (bdayInYear orig today.year).valid = true
  ∧ (resolveOccurrence today orig).valid = true
  ∧ (∀ y, isLeap y = false → bdayInYear orig y = ⟨y, 2, 28⟩) := by
  refine ⟨bdayInYear_valid orig _ h hy1 (by omega), ?_, ?_⟩
  · unfold resolveOccurrence
    dsimp only
    split
    · exact bdayInYear_valid orig _ h (by omega) hy2
    · exact bdayInYear_valid orig _ h hy1 (by omega)
  · intro y hleap
    have hfalse : validYMD y orig.month orig.day = false := by
      rw [hm, hd]
      simp [validYMD, daysInMonth, hleap]
    unfold bdayInYear
    rw [hfalse]
    simp [hm]

/-- Witness for C7 at the spec's example: birthday 29.02.2000 with
`today = 2025-06-10` resolves without construction failure, and in the
non-leap years 2025 and 2026 the occurrence is February 28. -/
theorem c7_feb29_fallback_witness :
    (bdayInYear ⟨2000, 2, 29⟩ 2025).valid = true
  ∧ (resolveOccurrence ⟨2025, 6, 10⟩ ⟨2000, 2, 29⟩).valid = true
  ∧ bdayInYear ⟨2000, 2, 29⟩ 2026 = ⟨2026, 2, 28⟩ :=
  ⟨(c7_feb29_fallback ⟨2000, 2, 29⟩ ⟨2025, 6, 10⟩ (by decide) rfl rfl
      (by decide) (by decide)).1,
   (c7_feb29_fallback ⟨2000, 2, 29⟩ ⟨2025, 6, 10⟩ (by decide) rfl rfl
      (by decide) (by decide)).2.1,
   (c7_feb29_fallback ⟨2000, 2, 29⟩ ⟨2025, 6, 10⟩ (by decide) rfl rfl
      (by decide) (by decide)).2.2 2026 (by decide)⟩

theorem editLoop_ok_values (contact old new : String) (l l2 : List Phone)
    (h : Record.editLoop contact old new l = .ok l2) :
    ∀ v ∈ l2.map Phone.value, v = new ∨ v ∈ l.map Phone.value := by
  induction l generalizing l2 with
  | nil => simp [Record.editLoop] at h
  | cons p rest ih =>
    unfold Record.editLoop at h
    split at h
    · cases hm : Phone.make new with
      | error e => rw [hm] at h; simp [Except.map] at h
      | ok q =>
        rw [hm] at h
        simp only [Except.map] at h
        injection h with h2
        subst h2
        intro v hv
        simp only [List.map_cons, List.mem_cons] at hv ⊢
        rcases hv with hv | hv
        · exact Or.inl (hv.trans (phone_make_ok new q hm).1)
        · exact Or.inr (Or.inr hv)
    · cases hm : Record.editLoop contact old new rest with
      | error e => rw [hm] at h; simp [Except.map] at h
      | ok l2' =>
        rw [hm] at h
        simp only [Except.map] at h
        injection h with h2
        subst h2
        intro v hv
        simp only [List.map_cons, List.mem_cons] at hv ⊢
        rcases hv with hv | hv
        · exact Or.inr (Or.inl hv)
        · rcases ih l2' hm v hv with hn | hr
          · exact Or.inl hn
          · exact Or.inr (Or.inr hr)

theorem editLoop_ok_nodup (contact old new : String) (l l2 : List Phone)
    (h : Record.editLoop contact old new l = .ok l2)
    (hn : (l.map Phone.value).Nodup)
    (hs : new = old ∨ new ∉ l.map Phone.value) :
    (l2.map Phone.value).Nodup := by
  induction l generalizing l2 with
  | nil => simp [Record.editLoop] at h
  | cons p rest ih =>
    simp only [List.map_cons, List.nodup_cons] at hn
    unfold Record.editLoop at h
    split at h
    · next heq =>
      rw [beq_iff_eq] at heq
      cases hm : Phone.make new with
      | error e => rw [hm] at h; simp [Except.map] at h
      | ok q =>
        rw [hm] at h
        simp only [Except.map] at h
        injection h with h2
        subst h2
        simp only [List.map_cons, List.nodup_cons]
        refine ⟨?_, hn.2⟩
        rw [(phone_make_ok new q hm).1]
        rcases hs with hs | hs
        · rw [hs, ← heq]
          exact hn.1
        · intro hmem
          exact hs (by simp [hmem])
    · next hne =>
      rw [beq_iff_eq] at hne
      cases hm : Record.editLoop contact old new rest with
      | error e => rw [hm] at h; simp [Except.map] at h
      | ok l2' =>
        rw [hm] at h
        simp only [Except.map] at h
        injection h with h2
        subst h2
        have hs' : new = old ∨ new ∉ rest.map Phone.value := by
          rcases hs with hs | hs
          · exact Or.inl hs
          · exact Or.inr (fun hmem => hs (by simp [hmem]))
        simp only [List.map_cons, List.nodup_cons]
        refine ⟨?_, ih l2' hm hn.2 hs'⟩
        intro hmem
        rcases editLoop_ok_values contact old new rest l2' hm _ hmem with hv | hv
        · rcases hs with hs | hs
          · exact hne (hv.trans hs)
          · exact hs (by simp [← hv])
        · exact hn.1 hv

theorem applyOp_preserves_nodup (r : Record) (op : RecOp)
    (h : r.phoneValues.Nodup) (hs : op.safeFor r = true) :
    (r.applyOp op).phoneValues.Nodup := by
  cases op with
  | addPhone n =>
    simp only [Record.applyOp]
    cases ha : r.add_phone n with
    | error e => exact h
    | ok r2 =>
      unfold Record.add_phone at ha
      split at ha
      · simp at ha
      · next hany =>
        cases hm : Phone.make n with
        | error e => rw [hm] at ha; simp [Except.map] at ha
        | ok p =>
          rw [hm] at ha
          simp only [Except.map] at ha
          injection ha with ha2
          subst ha2
          simp only [Record.phoneValues, List.map_append, List.map_cons,
            List.map_nil] at h ⊢
          rw [(phone_make_ok n p hm).1]
          have hnot : n ∉ r.phones.map Phone.value := by
            intro hmem
            exact hany ((mem_phoneValues_iff r n).mp hmem)
          simp [List.nodup_append, h, hnot]
  | removePhone n =>
    simp only [Record.applyOp, Record.remove_phone, Record.phoneValues] at h ⊢
    exact h.sublist ((List.filter_sublist r.phones).map Phone.value)
  | editPhone o n =>
    simp only [Record.applyOp]
    cases ha : r.edit_phone o n with
    | error e => exact h
    | ok r2 =>
      unfold Record.edit_phone at ha
      cases hm : Record.editLoop r.name.value o n r.phones with
      | error e => rw [hm] at ha; simp [Except.map] at ha
      | ok l2 =>
        rw [hm] at ha
        simp only [Except.map] at ha
        injection ha with ha2
        subst ha2
        simp only [RecOp.safeFor, decide_eq_true_eq] at hs
        exact editLoop_ok_nodup r.name.value o n r.phones l2 hm h hs
  | addBirthday s =>
    simp only [Record.applyOp]
    cases ha : r.add_birthday s with
    | error e => exact h
    | ok r2 =>
      unfold Record.add_birthday at ha
      cases hm : Birthday.make s with
      | error e => rw [hm] at ha; simp [Except.map] at ha
      | ok b =>
        rw [hm] at ha
        simp only [Except.map] at ha
        injection ha with ha2
        subst ha2
        exact h

/-- C4 counterexample: starting from a record whose two phone values are
distinct, a single `edit_phone` replacing the first number by the value of the
second succeeds and leaves two value-equal phones: `edit_phone` performs no
duplicate check, so the pairwise-distinctness invariant is not preserved by
every record operation. -/
theorem c4_edit_phone_breaks_distinctness :
    (Record.phoneValues ⟨⟨"Ann"⟩, [⟨"1234567890"⟩, ⟨"0987654321"⟩], none⟩).Nodup
  ∧ ¬ (Record.phoneValues
        (Record.applyOps ⟨⟨"Ann"⟩, [⟨"1234567890"⟩, ⟨"0987654321"⟩], none⟩
          [.editPhone "1234567890" "0987654321"])).Nodup := by
  exact ⟨by decide, by decide⟩

/-- C4 amended: starting from a record with pairwise-distinct phone values,
any sequence of `add_phone`, `remove_phone`, `edit_phone`, `add_birthday`
leaves the values pairwise distinct, provided each `edit_phone` step's new
number either equals the old number or is not present on the record at that
step; without this proviso on `edit_phone` the invariant can be broken. -/
theorem c4_distinctness_preserved_safe_ops (r : Record) (ops : List RecOp)
    (h : r.phoneValues.Nodup) (hs : r.opsSafe ops = true) :
    (r.applyOps ops).phoneValues.Nodup := by
  induction ops generalizing r with
  | nil => exact h
  | cons op rest ih =>
    unfold Record.opsSafe at hs
    rw [Bool.and_eq_true] at hs
    exact ih (r.applyOp op) (applyOp_preserves_nodup r op h hs.1) hs.2

/-- Witness for C4 amended: a concrete safe sequence of all four operations
keeps the phone values pairwise distinct. -/
theorem c4_distinctness_preserved_safe_ops_witness :
    (Record.applyOps ⟨⟨"Bob"⟩, [], none⟩
      [.addPhone "1234567890", .addPhone "0987654321",
       .editPhone "1234567890" "1111111111", .removePhone "0987654321",
       .addBirthday "11.11.2002"]).phoneValues.Nodup :=
  c4_distinctness_preserved_safe_ops ⟨⟨"Bob"⟩, [], none⟩
    [.addPhone "1234567890", .addPhone "0987654321",
     .editPhone "1234567890" "1111111111", .removePhone "0987654321",
     .addBirthday "11.11.2002"] (by decide) (by decide)

/-- C5 counterexample: the source constructor stores the raw input string
(`self.value = value`, line 31), not a parsed (day, month, year) value: the
`value` held by a successfully constructed Birthday is the input string
itself. -/
theorem c5_birthday_stores_raw_string :
    (Birthday.make "11.11.2002").map Birthday.value = .ok "11.11.2002" := by rfl

/-- C5 amended: on success a Birthday holds the validated raw string, and the
parsed calendar date is recovered by re-parsing that stored string, which is
exactly what `get_upcoming_birthdays` does (line 86) before its calendar
arithmetic. -/
theorem c5_raw_string_reparsed (s : String) (b : Birthday)
    (h : Birthday.make s = .ok b) :
    b.value = s ∧ ∀ d, parseDDMMYYYY s = some d → b.bdate = d := by
  unfold Birthday.make at h
  split at h
  · injection h with h2
    subst h2
    refine ⟨rfl, fun d hd => ?_⟩
    unfold Birthday.bdate
    simp [hd]
  · simp at h

/-- Witness for C5 amended at a concrete input. -/
theorem c5_raw_string_reparsed_witness :
    (⟨"11.11.2002", by decide⟩ : Birthday).value = "11.11.2002"
  ∧ Birthday.bdate ⟨"11.11.2002", by decide⟩ = ⟨2002, 11, 11⟩ :=
  ⟨(c5_raw_string_reparsed "11.11.2002" ⟨"11.11.2002", by decide⟩ rfl).1,
   (c5_raw_string_reparsed "11.11.2002" ⟨"11.11.2002", by decide⟩ rfl).2
     ⟨2002, 11, 11⟩ (by decide)⟩

/-- The strict two-digit-day, two-digit-month, four-digit-year `DD.MM.YYYY`
format described by the spec, with the parts forming a real calendar date.
This definition follows the words of the spec, for comparison with
`parseDDMMYYYY`, which follows the source's `strptime` call. -/
def specStrictDDMMYYYY (s : String) : Bool :=
  match splitDots s.data with
  | [d, m, y] =>
    allDigits d && allDigits m && allDigits y
      && (d.length == 2) && (m.length == 2) && (y.length == 4)
      && validYMD (digitsToNat y) (digitsToNat m) (digitsToNat d)
  | _ => false

/-- C6 counterexample: `"1.01.2002"` does not match the strict two-digit-day
`DD.MM.YYYY` format, yet Birthday construction succeeds, because `strptime`
with `%d` also accepts a single-digit day; so construction does not fail for
every string outside the strict format. -/
theorem c6_single_digit_day_accepted :
    specStrictDDMMYYYY "1.01.2002" = false
  ∧ (Birthday.make "1.01.2002").map Birthday.value = .ok "1.01.2002" := by
  exact ⟨by decide, by rfl⟩

theorem strict_implies_parse (s : String) (h : specStrictDDMMYYYY s = true) :
    (parseDDMMYYYY s).isSome = true := by
  unfold specStrictDDMMYYYY at h
  unfold parseDDMMYYYY
  cases hsplit : splitDots s.data with
  | nil => rw [hsplit] at h; simp at h
  | cons d t =>
    cases t with
    | nil => rw [hsplit] at h; simp at h
    | cons m t2 =>
      cases t2 with
      | nil => rw [hsplit] at h; simp at h
      | cons y t3 =>
        cases t3 with
        | cons z t4 => rw [hsplit] at h; simp at h
        | nil =>
          rw [hsplit] at h
          simp only [Bool.and_eq_true, beq_iff_eq] at h
          obtain ⟨⟨⟨⟨⟨⟨hd, hm⟩, hy⟩, hdl⟩, hml⟩, hyl⟩, hv⟩ := h
          have hvp := of_decide_eq_true hv
          have h31 := daysInMonth_le_31 (digitsToNat y) (digitsToNat m)
          have hcond : (allDigits d && allDigits m && allDigits y
              && (d.length == 1 || d.length == 2)
              && decide (1 ≤ digitsToNat d) && decide (digitsToNat d ≤ 31)
              && (m.length == 1 || m.length == 2)
              && decide (1 ≤ digitsToNat m) && decide (digitsToNat m ≤ 12)
              && (y.length == 4)
              && validYMD (digitsToNat y) (digitsToNat m) (digitsToNat d)) = true := by
            simp only [Bool.and_eq_true, Bool.or_eq_true, beq_iff_eq,
              decide_eq_true_eq]
            exact ⟨⟨⟨⟨⟨⟨⟨⟨⟨⟨hd, hm⟩, hy⟩, Or.inr hdl⟩, by omega⟩, by omega⟩,
              Or.inr hml⟩, by omega⟩, by omega⟩, hyl⟩, hv⟩
          simp [hcond]

/-- C6 amended: Birthday construction fails with
"Invalid date format. Use DD.MM.YYYY" exactly when the input does not parse as
day `.` month `.` year with a 1-or-2-digit day, a 1-or-2-digit month and an
exactly-4-digit year forming a possible calendar date (`strptime` also accepts
unpadded single-digit days and months); every valid date written in the strict
two-digit `DD.MM.YYYY` format is still accepted. -/
theorem c6_lenient_parse_iff (s : String) :
    ((Birthday.make s).isOk = true ↔ (parseDDMMYYYY s).isSome = true)
  ∧ ((parseDDMMYYYY s).isSome = false →
      Birthday.make s = .error "Invalid date format. Use DD.MM.YYYY")
  ∧ (specStrictDDMMYYYY s = true → (Birthday.make s).isOk = true) := by
  have h1 : (Birthday.make s).isOk = true ↔ (parseDDMMYYYY s).isSome = true := by
    unfold Birthday.make
    split
    · next hv => simp [Except.isOk, Except.toBool, hv]
    · next hv => simp [Except.isOk, Except.toBool, hv]
  refine ⟨h1, fun h => ?_, fun h => h1.mpr (strict_implies_parse s h)⟩
  unfold Birthday.make
  rw [dif_neg (by simp [h])]

/-- Witness for C6 amended: an impossible date and a malformed string fail
with the message, a strict-format date succeeds. -/
theorem c6_lenient_parse_iff_witness :
    Birthday.make "31.02.2020" = .error "Invalid date format. Use DD.MM.YYYY"
  ∧ Birthday.make "2002-11-11" = .error "Invalid date format. Use DD.MM.YYYY"
  ∧ (Birthday.make "29.02.2000").isOk = true :=
  ⟨(c6_lenient_parse_iff "31.02.2020").2.1 (by decide),
   (c6_lenient_parse_iff "2002-11-11").2.1 (by decide),
   (c6_lenient_parse_iff "29.02.2000").2.2 (by decide)⟩

theorem editLoop_not_found (contact old new : String) (l : List Phone)
    (h : old ∉ l.map Phone.value) :
    Record.editLoop contact old new l
      = .error ("Phone '" ++ old ++ "' not found for contact '" ++ contact ++ "'.") := by
  induction l with
  | nil => rfl
  | cons p rest ih =>
    simp only [List.map_cons, List.mem_cons, not_or] at h
    unfold Record.editLoop
    rw [if_neg (by simp only [beq_iff_eq]; exact fun he => h.1 he.symm), ih h.2]
    rfl

theorem editLoop_replace (contact old new : String) (l1 l2 : List Phone) (p : Phone)
    (h1 : old ∉ l1.map Phone.value) (hp : p.value = old)
    (hv : Phone.validate_number new = .ok new) :
    Record.editLoop contact old new (l1 ++ p :: l2) = .ok (l1 ++ ⟨new⟩ :: l2) := by
  induction l1 with
  | nil =>
    simp only [List.nil_append]
    unfold Record.editLoop
    rw [if_pos (by simp [hp])]
    simp [Phone.make, hv, Except.map]
  | cons q rest ih =>
    simp only [List.map_cons, List.mem_cons, not_or] at h1
    simp only [List.cons_append]
    unfold Record.editLoop
    rw [if_neg (by simp only [beq_iff_eq]; exact fun he => h1.1 he.symm), ih h1.2]
    rfl

theorem editLoop_invalid_new (contact old new : String) (l : List Phone) (e : String)
    (hmem : old ∈ l.map Phone.value) (hv : Phone.validate_number new = .error e) :
    Record.editLoop contact old new l = .error e := by
  induction l with
  | nil => simp at hmem
  | cons p rest ih =>
    unfold Record.editLoop
    by_cases hh : p.value = old
    · rw [if_pos (by simp [hh])]
      simp [Phone.make, hv, Except.map]
    · rw [if_neg (by simp [hh])]
      have hmem' : old ∈ rest.map Phone.value := by
        simp only [List.map_cons, List.mem_cons] at hmem
        rcases hmem with hmem | hmem
        · exact absurd hmem.symm hh
        · exact hmem
      rw [ih hmem']
      rfl

/-- C9: `edit_phone` on an absent old number fails with the not-found error
and leaves the record unchanged; with the old number present (first occurrence
at the end of prefix `l1`) and a valid new number, exactly that occurrence is
replaced in place; a validation failure on the new number propagates. -/
theorem c9_edit_phone_spec (r : Record) (old new : String) :
    (old ∉ r.phoneValues →
        r.edit_phone old new
          = .error ("Phone '" ++ old ++ "' not found for contact '" ++ r.name.value ++ "'.")
      ∧ r.applyOp (.editPhone old new) = r)
  ∧ (∀ l1 p l2, r.phones = l1 ++ p :: l2 → old ∉ l1.map Phone.value →
      p.value = old → Phone.validate_number new = .ok new →
        r.edit_phone old new = .ok { r with phones := l1 ++ ⟨new⟩ :: l2 })
  ∧ (∀ e, old ∈ r.phoneValues → Phone.validate_number new = .error e →
        r.edit_phone old new = .error e) := by
  refine ⟨fun hmem => ?_, fun l1 p l2 hsplit h1 hp hv => ?_, fun e hmem hv => ?_⟩
  · have herr : r.edit_phone old new
        = .error ("Phone '" ++ old ++ "' not found for contact '" ++ r.name.value ++ "'.") := by
      unfold Record.edit_phone
      rw [editLoop_not_found r.name.value old new r.phones hmem]
      rfl
    exact ⟨herr, by simp only [Record.applyOp, herr]⟩
  · unfold Record.edit_phone
    rw [hsplit, editLoop_replace r.name.value old new l1 l2 p h1 hp hv]
    rfl
  · unfold Record.edit_phone
    rw [editLoop_invalid_new r.name.value old new r.phones e hmem hv]
    rfl

/-- Witness for C9: editing an absent number fails with the not-found message
and no change; replacing the second of two phones keeps the first in place;
an invalid new number propagates its validation error. -/
theorem c9_edit_phone_spec_witness :
    (Record.edit_phone ⟨⟨"Ann"⟩, [⟨"1234567890"⟩], none⟩ "0000000000" "1111111111"
        = .error "Phone '0000000000' not found for contact 'Ann'."
      ∧ Record.applyOp ⟨⟨"Ann"⟩, [⟨"1234567890"⟩], none⟩ (.editPhone "0000000000" "1111111111")
        = ⟨⟨"Ann"⟩, [⟨"1234567890"⟩], none⟩)
  ∧ Record.edit_phone ⟨⟨"Ann"⟩, [⟨"1234567890"⟩, ⟨"0987654321"⟩], none⟩ "0987654321" "1111111111"
      = .ok ⟨⟨"Ann"⟩, [⟨"1234567890"⟩, ⟨"1111111111"⟩], none⟩
  ∧ Record.edit_phone ⟨⟨"Ann"⟩, [⟨"1234567890"⟩], none⟩ "1234567890" "123"
      = .error "Phone number must contain 10 digits" :=
  ⟨(c9_edit_phone_spec ⟨⟨"Ann"⟩, [⟨"1234567890"⟩], none⟩ "0000000000" "1111111111").1
     (by decide),
   (c9_edit_phone_spec ⟨⟨"Ann"⟩, [⟨"1234567890"⟩, ⟨"0987654321"⟩], none⟩
      "0987654321" "1111111111").2.1 [⟨"1234567890"⟩] ⟨"0987654321"⟩ []
      rfl (by decide) rfl (by rfl),
   (c9_edit_phone_spec ⟨⟨"Ann"⟩, [⟨"1234567890"⟩], none⟩ "1234567890" "123").2.2
      "Phone number must contain 10 digits" (by decide) (by rfl)⟩

